import Mathlib

/-!
# Verification of the Jxo SDK (src/sdk.js)

A shallow embedding of the Jxo browser SDK: the value codec between plain
JSON-like objects and the Firestore tagged-union wire format
(`_objectToFirestore` / `_firestoreToObject`), the session bootstrap (`init`,
`_parseJWT`), the app-data store operations (`getAppData`, `updateAppData`,
`setAppData`, `deleteAppData`), and the read-only user accessor (`getUser`).

JavaScript numbers are modelled as rationals (`ℚ`), with `Number.isInteger`
becoming the `den = 1` test; machine-float precision is outside the model
(the spec's safe-integer caveat).  JavaScript objects are modelled as ordered
association lists, matching the insertion-order iteration of `for..in` on the
plain objects the SDK handles.
-/

namespace Jxo

/-! ## Decimal digits: `Number.prototype.toString` and `parseInt` models

`natDigitsFuel` renders the decimal digits of a natural number, most
significant first; fuel-structural so that it evaluates by kernel reduction.
`n + 1` units of fuel always suffice since `n / 10 < n` for `n ≥ 10`. -/

/-- The character for decimal digit `d` (`d < 10`). -/
def decDigit (d : Nat) : Char := Char.ofNat (48 + d)

/-- Decimal digit characters of `n`, most significant first; structural on
`fuel`, correct whenever `n < fuel`. -/
def natDigitsFuel : Nat → Nat → List Char
  | 0, _ => []
  | fuel + 1, n =>
    if n < 10 then [decDigit n]
    else natDigitsFuel fuel (n / 10) ++ [decDigit (n % 10)]

/-- Decimal digit characters of `n` (most significant first). -/
def natDecChars (n : Nat) : List Char := natDigitsFuel (n + 1) n

/-- Models `Number.prototype.toString()` on an integral JS number:
optional minus sign, then decimal digits. -/
def intToDecStr (n : Int) : String :=
  if n < 0 then ⟨'-' :: natDecChars n.natAbs⟩ else ⟨natDecChars n.toNat⟩

/-- Numeric value of a decimal digit character. -/
def digitVal (c : Char) : Nat := c.toNat - 48

/-- Value of a big-endian decimal digit string. -/
def parseDecNat (cs : List Char) : Nat :=
  cs.foldl (fun a c => a * 10 + digitVal c) 0

/-- Models the JS builtin `parseInt` on the decimal strings produced by
`intToDecStr`: optional leading minus sign, then decimal digits.  (The
builtin's whitespace/radix/garbage handling is not needed: the SDK applies
`parseInt` to `integerValue` payloads, which the encoder renders with
`toString`.) -/
def jsParseInt (s : String) : Int :=
  if s.data.head? = some '-' then -(parseDecNat s.data.tail : Int)
  else (parseDecNat s.data : Int)

/-! ## The value model

`JVal` is the dynamically-typed JavaScript value the SDK's codec dispatches
on with `typeof`: string, number, boolean, `null`, array, plain object, and
`other` for every remaining runtime type (`undefined`, functions, symbols)
— none of the codec's `typeof` branches match an `other` value, and its
payload records what `String(v)` produces for it.  Mutual inductives (rather
than nested `List`) keep every recursion structural and kernel-computable. -/

mutual
/-- A JavaScript value as dispatched by the codec (`src/sdk.js` lines
407-440). -/
inductive JVal where
  | str (s : String)
  | num (q : ℚ)
  | bool (b : Bool)
  | null
  | arr (xs : JList)
  | obj (fs : JFields)
  | other (stringForm : String)
deriving DecidableEq

/-- A JavaScript array of values. -/
inductive JList where
  | nil
  | cons (v : JVal) (tl : JList)
deriving DecidableEq

/-- A JavaScript plain object: ordered (key, value) properties. -/
inductive JFields where
  | nil
  | cons (k : String) (v : JVal) (tl : JFields)
deriving DecidableEq
end

/-! ## The wire model

A Firestore wire field as `_firestoreToObject` receives it: a JS object that
may carry any subset of the seven tag keys (a well-formed union carries
exactly one, but the decoder is applied to arbitrary wire input, so presence
of each tag is independent).  `nullValue` is modelled by presence alone
(the decoder only tests `field.nullValue !== undefined`).  The `mapValue`
and `arrayValue` payloads are the `fields` / `values` members; the source
defaults a missing member to empty (`field.mapValue.fields || {}`,
`field.arrayValue.values || []`), so the model carries the defaulted list. -/

mutual
/-- A wire field: the seven Firestore value tags, each independently
present or absent. -/
inductive WireField where
  | mk (stringValue : Option String) (integerValue : Option String)
      (doubleValue : Option ℚ) (booleanValue : Option Bool)
      (nullValue : Bool) (mapValue : Option WireFields)
      (arrayValue : Option WireList)

/-- An ordered wire document: (key, wire field) pairs. -/
inductive WireFields where
  | nil
  | cons (k : String) (f : WireField) (tl : WireFields)

/-- A wire `arrayValue.values` list. -/
inductive WireList where
  | nil
  | cons (f : WireField) (tl : WireList)
end

/-- The wire field `{stringValue: s}`. -/
def WireField.ofString (s : String) : WireField :=
  .mk (some s) none none none false none none

/-- The wire field `{integerValue: s}` (decimal string payload). -/
def WireField.ofInteger (s : String) : WireField :=
  .mk none (some s) none none false none none

/-- The wire field `{doubleValue: q}`. -/
def WireField.ofDouble (q : ℚ) : WireField :=
  .mk none none (some q) none false none none

/-- The wire field `{booleanValue: b}`. -/
def WireField.ofBoolean (b : Bool) : WireField :=
  .mk none none none (some b) false none none

/-- The wire field `{nullValue: null}`. -/
def WireField.ofNull : WireField :=
  .mk none none none none true none none

/-- The wire field `{mapValue: {fields: fs}}`. -/
def WireField.ofMap (fs : WireFields) : WireField :=
  .mk none none none none false (some fs) none

/-- The wire field `{arrayValue: {values: vs}}`. -/
def WireField.ofArray (vs : WireList) : WireField :=
  .mk none none none none false none (some vs)

/-- The `stringValue` tag of a wire field, when present. -/
def WireField.stringValue : WireField → Option String
  | .mk s _ _ _ _ _ _ => s

/-- The `integerValue` tag of a wire field, when present. -/
def WireField.integerValue : WireField → Option String
  | .mk _ i _ _ _ _ _ => i

/-- The `doubleValue` tag of a wire field, when present. -/
def WireField.doubleValue : WireField → Option ℚ
  | .mk _ _ d _ _ _ _ => d

/-- The `booleanValue` tag of a wire field, when present. -/
def WireField.booleanValue : WireField → Option Bool
  | .mk _ _ _ b _ _ _ => b

/-- Whether the `nullValue` tag is present. -/
def WireField.nullValue : WireField → Bool
  | .mk _ _ _ _ nv _ _ => nv

/-- The `mapValue` tag of a wire field, when present. -/
def WireField.mapValue : WireField → Option WireFields
  | .mk _ _ _ _ _ mv _ => mv

/-- The `arrayValue` tag of a wire field, when present. -/
def WireField.arrayValue : WireField → Option WireList
  | .mk _ _ _ _ _ _ av => av

/-- A malformed union: none of the seven tags the decoder recognizes is
present. -/
def WireField.hasNoTag (f : WireField) : Bool :=
  f.stringValue.isNone && f.integerValue.isNone && f.doubleValue.isNone &&
    f.booleanValue.isNone && !f.nullValue && f.mapValue.isNone &&
    f.arrayValue.isNone

/-! ## Encoding: `_objectToFirestore` (src/sdk.js lines 407-440)

Top-level / map-entry dispatch (`encodeField`): string, number (integral →
`integerValue` as a decimal string, else `doubleValue`), boolean, `null`,
`Array.isArray` → `arrayValue`, remaining `typeof === 'object'` →
`mapValue`; any other runtime type matches no branch, so the key is simply
omitted (`encodeField = none`).

List-element dispatch (`encodeElem`, the `val.map` callback at lines
421-431): string, number, boolean, `null`, then `typeof v === 'object'` →
`mapValue` — there is no `Array.isArray` case here, so a *nested array* also
takes the `mapValue` branch, where `_objectToFirestore` iterates the array's
index keys (`"0"`, `"1"`, …); the final fallback returns
`{stringValue: String(v)}`. -/

mutual
/-- The function `_objectToFirestore`: encode a plain object's properties. -/
def objectToFirestore : JFields → WireFields
  | .nil => .nil
  | .cons k v tl =>
    match encodeField v with
    | some w => .cons k w (objectToFirestore tl)
    | none => objectToFirestore tl

/-- The per-property dispatch of `_objectToFirestore`; `none` means no
branch matched and the key is omitted. -/
def encodeField : JVal → Option WireField
  | .str s => some (.ofString s)
  | .num q =>
    some (if q.den = 1 then .ofInteger (intToDecStr q.num) else .ofDouble q)
  | .bool b => some (.ofBoolean b)
  | .null => some .ofNull
  | .arr xs => some (.ofArray (encodeElems xs))
  | .obj fs => some (.ofMap (objectToFirestore fs))
  | .other _ => none

/-- Encode the elements of an `arrayValue`. -/
def encodeElems : JList → WireList
  | .nil => .nil
  | .cons v tl => .cons (encodeElem v) (encodeElems tl)

/-- The `val.map` callback (lines 421-431): encode one array element.  A
nested array lands in the `typeof v === 'object'` branch, which feeds the
array itself to `_objectToFirestore`; `for..in` over an array iterates its
decimal index keys, handled by `encodeArrayAsMapFields`. -/
def encodeElem : JVal → WireField
  | .str s => .ofString s
  | .num q => if q.den = 1 then .ofInteger (intToDecStr q.num) else .ofDouble q
  | .bool b => .ofBoolean b
  | .null => .ofNull
  | .arr xs => .ofMap (encodeArrayAsMapFields 0 xs)
  | .obj fs => .ofMap (objectToFirestore fs)
  | .other stringForm => .ofString stringForm

/-- The function `_objectToFirestore` applied to a JS *array* (reachable only through
`encodeElem`'s `mapValue` branch): `for..in` yields the decimal index keys
`"0"`, `"1"`, …, each element dispatched like a top-level property. -/
def encodeArrayAsMapFields : Nat → JList → WireFields
  | _, .nil => .nil
  | i, .cons v tl =>
    match encodeField v with
    | some w => .cons ⟨natDecChars i⟩ w (encodeArrayAsMapFields (i + 1) tl)
    | none => encodeArrayAsMapFields (i + 1) tl
end

/-! ## Decoding: `_firestoreToObject` (src/sdk.js lines 379-401)

Top-level / map-field dispatch (`fieldToObj`): the tags are tested in source
order (`stringValue`, `integerValue` → `parseInt`, `doubleValue`,
`booleanValue`, `nullValue`, `mapValue`, `arrayValue`); a field carrying
none of them is silently skipped (`none`), so its key is absent from the
result.

List-element dispatch (`elemToObj`, the `.map` callback at lines 390-397):
only `stringValue`, `integerValue`, `doubleValue`, `booleanValue`,
`mapValue` are tested — no `nullValue` and no `arrayValue` case — and the
fallback result is `null`. -/

mutual
/-- The function `_firestoreToObject`: decode a wire document to a plain object. -/
def firestoreToObject : WireFields → JFields
  | .nil => .nil
  | .cons k f tl =>
    match fieldToObj f with
    | some v => .cons k v (firestoreToObject tl)
    | none => firestoreToObject tl

/-- The per-key dispatch of `_firestoreToObject` (`none` = key skipped). -/
def fieldToObj : WireField → Option JVal
  | .mk (some s) _ _ _ _ _ _ => some (.str s)
  | .mk none (some i) _ _ _ _ _ => some (.num (jsParseInt i : ℚ))
  | .mk none none (some d) _ _ _ _ => some (.num d)
  | .mk none none none (some b) _ _ _ => some (.bool b)
  | .mk none none none none true _ _ => some .null
  | .mk none none none none false (some fs) _ =>
    some (.obj (firestoreToObject fs))
  | .mk none none none none false none (some vs) =>
    some (.arr (elemsToObj vs))
  | .mk none none none none false none none => none

/-- Decode the elements of an `arrayValue`. -/
def elemsToObj : WireList → JList
  | .nil => .nil
  | .cons f tl => .cons (elemToObj f) (elemsToObj tl)

/-- The `.map` callback (lines 390-397): decode one array element; every
unmatched shape — including a nested `arrayValue` and a bare `nullValue` —
falls through to `null`. -/
def elemToObj : WireField → JVal
  | .mk (some s) _ _ _ _ _ _ => .str s
  | .mk none (some i) _ _ _ _ _ => .num (jsParseInt i : ℚ)
  | .mk none none (some d) _ _ _ _ => .num d
  | .mk none none none (some b) _ _ _ => .bool b
  | .mk none none none none _ (some fs) _ => .obj (firestoreToObject fs)
  | .mk none none none none _ none _ => .null
end

/-! ## The round-trip domain

`goodVal v` holds when `v` is built only from strings, numbers, booleans,
`null`, lists and maps (no `other` values), with the extra restriction that
no list occurs *directly* as an element of another list (the shape the
encoder's missing `Array.isArray` case silently rewrites into a map). -/

mutual
/-- Whether `v` round-trips in top-level / map-entry position. -/
def goodVal : JVal → Bool
  | .str _ => true
  | .num _ => true
  | .bool _ => true
  | .null => true
  | .arr xs => goodElems xs
  | .obj fs => goodFields fs
  | .other _ => false

/-- Every element round-trips in list-element position. -/
def goodElems : JList → Bool
  | .nil => true
  | .cons v tl => goodElem v && goodElems tl

/-- Whether `v` round-trips in list-element position: additionally not itself a
list. -/
def goodElem : JVal → Bool
  | .str _ => true
  | .num _ => true
  | .bool _ => true
  | .null => true
  | .arr _ => false
  | .obj fs => goodFields fs
  | .other _ => false

/-- Every property value round-trips. -/
def goodFields : JFields → Bool
  | .nil => true
  | .cons _ v tl => goodVal v && goodFields tl
end

/-! ## Concrete example documents (used by witnesses and counterexamples) -/

/-- The document `{"s":"x","i":42,"neg":-7,"f":3/2,"b":true,"n":null,
"m":{"y":5},"l":["e",null,{"z":false}]}` — every round-tripping shape,
including a map nested inside a list. -/
def exRoundtrip : JFields :=
  .cons "s" (.str "x") (.cons "i" (.num 42) (.cons "neg" (.num (-7))
    (.cons "f" (.num (mkRat 3 2)) (.cons "b" (.bool true) (.cons "n" .null
    (.cons "m" (.obj (.cons "y" (.num 5) .nil))
    (.cons "l" (.arr (.cons (.str "e") (.cons .null
      (.cons (.obj (.cons "z" (.bool false) .nil)) .nil)))) .nil)))))))

/-- The document `{"k": [[1]]}` — a list nested directly inside a list. -/
def exNestedList : JFields :=
  .cons "k" (.arr (.cons (.arr (.cons (.num 1) .nil)) .nil)) .nil

/-- The document `{"k": [{"0": 1}]}` — what `exNestedList` actually decodes back to. -/
def exNestedListDecoded : JFields :=
  .cons "k" (.arr (.cons (.obj (.cons "0" (.num 1) .nil)) .nil)) .nil

/-! ## `JSON.stringify` model

`updateAppData` / `setAppData` measure `JSON.stringify(data).length`
against the 10 KB ceiling, and the PATCH body is
`JSON.stringify({fields: _objectToFirestore(data)})`.  The JS builtin is
modelled here for the SDK's value domain.  (`String.length` counts code
points where JS counts UTF-16 code units; they agree on the
basic-multilingual-plane strings modelled here.) -/

/-- Hexadecimal digit character (lowercase). -/
def hexDigit (d : Nat) : Char := if d < 10 then decDigit d else Char.ofNat (87 + d)

/-- JSON escaping of one character: quote, backslash and the named control
escapes, `\u00XX` for other control characters, identity otherwise. -/
def escapeJsonChar (c : Char) : List Char :=
  if c = '"' then ['\\', '"']
  else if c = '\\' then ['\\', '\\']
  else if c = Char.ofNat 8 then ['\\', 'b']
  else if c = Char.ofNat 9 then ['\\', 't']
  else if c = Char.ofNat 10 then ['\\', 'n']
  else if c = Char.ofNat 12 then ['\\', 'f']
  else if c = Char.ofNat 13 then ['\\', 'r']
  else if c.toNat < 32 then
    ['\\', 'u', '0', '0', hexDigit (c.toNat / 16), hexDigit (c.toNat % 16)]
  else [c]

/-- JSON escaping of a whole string. -/
def escapeJson (s : String) : String := ⟨(s.data.map escapeJsonChar).flatten⟩

/-- A JSON string literal: quoted, escaped. -/
def quoteJson (s : String) : String := "\"" ++ escapeJson s ++ "\""

/-- Comma-separated concatenation. -/
def sepComma : List String → String
  | [] => ""
  | [x] => x
  | x :: xs => x ++ "," ++ sepComma xs

/-- JSON rendering of a JS number.  Integral numbers render digit-exactly
(`toString`); for non-integral numbers JS prints the float's shortest
decimal form, which a rational model cannot reproduce, so the
`num.den` rendering below is a declared stand-in (no claim in this
development depends on the characters of a float rendering). -/
def jsonOfNum (q : ℚ) : String :=
  if q.den = 1 then intToDecStr q.num
  else intToDecStr q.num ++ "." ++ ⟨natDecChars q.den⟩

mutual
/-- Models `JSON.stringify` of one value; `none` for values stringify omits
(`undefined`, functions — the `other` runtime types). -/
def jsonOfVal : JVal → Option String
  | .str s => some (quoteJson s)
  | .num q => some (jsonOfNum q)
  | .bool b => some (if b then "true" else "false")
  | .null => some "null"
  | .arr xs => some ("[" ++ sepComma (jsonOfElems xs) ++ "]")
  | .obj fs => some ("\x7b" ++ sepComma (jsonOfProps fs) ++ "\x7d")
  | .other _ => none

/-- Array elements: an omitted value renders as `null` inside an array. -/
def jsonOfElems : JList → List String
  | .nil => []
  | .cons v tl => ((jsonOfVal v).getD "null") :: jsonOfElems tl

/-- Object members: an omitted value drops the key. -/
def jsonOfProps : JFields → List String
  | .nil => []
  | .cons k v tl =>
    match jsonOfVal v with
    | some j => (quoteJson k ++ ":" ++ j) :: jsonOfProps tl
    | none => jsonOfProps tl
end

/-- Models `JSON.stringify(data)` for a plain-object document — the string whose
`.length` the size check measures. -/
def jsonStringifyDoc (fs : JFields) : String :=
  "\x7b" ++ sepComma (jsonOfProps fs) ++ "\x7d"

mutual
/-- Models `JSON.stringify` of one wire field (the tagged-union object), members
in tag order. -/
def wireJsonOfField : WireField → String
  | .mk s i d b nv mv av =>
    "\x7b" ++ sepComma (List.flatten [
      (match s with
        | some x => [quoteJson "stringValue" ++ ":" ++ quoteJson x]
        | none => []),
      (match i with
        | some x => [quoteJson "integerValue" ++ ":" ++ quoteJson x]
        | none => []),
      (match d with
        | some x => [quoteJson "doubleValue" ++ ":" ++ jsonOfNum x]
        | none => []),
      (match b with
        | some x => [quoteJson "booleanValue" ++ ":"
            ++ (if x then "true" else "false")]
        | none => []),
      (if nv then [quoteJson "nullValue" ++ ":null"] else []),
      (match mv with
        | some fs => [quoteJson "mapValue" ++ ":\x7b" ++ quoteJson "fields"
            ++ ":\x7b" ++ sepComma (wireJsonOfProps fs) ++ "\x7d\x7d"]
        | none => []),
      (match av with
        | some vs => [quoteJson "arrayValue" ++ ":\x7b" ++ quoteJson "values"
            ++ ":[" ++ sepComma (wireJsonOfList vs) ++ "]\x7d"]
        | none => [])]) ++ "\x7d"

/-- Members of a wire document object. -/
def wireJsonOfProps : WireFields → List String
  | .nil => []
  | .cons k f tl => (quoteJson k ++ ":" ++ wireJsonOfField f) :: wireJsonOfProps tl

/-- Elements of a wire `values` array. -/
def wireJsonOfList : WireList → List String
  | .nil => []
  | .cons f tl => wireJsonOfField f :: wireJsonOfList tl
end

/-- Models `JSON.stringify` of a whole wire document. -/
def wireJsonOfFields (fs : WireFields) : String :=
  "\x7b" ++ sepComma (wireJsonOfProps fs) ++ "\x7d"

/-- The PATCH request body:
`JSON.stringify({fields: _objectToFirestore(data)})` — the encoded wire
form of the document. -/
def wireBody (data : JFields) : String :=
  "\x7b" ++ quoteJson "fields" ++ ":"
    ++ wireJsonOfFields (objectToFirestore data) ++ "\x7d"

/-! ## Session state and the document-store operations

`currentUser` / `currentAppId` are the module-level state.  The user object
built by `init` carries the claim values verbatim (`undefined` when a claim
is absent, modelled by `Option`). -/

/-- The `currentUser` object (src/sdk.js lines 58-64): claims- and
profile-derived fields; `none` models JS `undefined`/`null`. -/
structure JUser where
  uid : Option JVal
  email : Option JVal
  emailVerified : Option JVal
  displayName : Option String
  photoURL : Option String
deriving DecidableEq

/-- The constant `MAX_APP_DATA_SIZE` (src/sdk.js line 18): the 10 KB ceiling. -/
def MAX_APP_DATA_SIZE : Nat := 10240

/-- Outcome of a store operation, up to the transport boundary: one of the
three local failures thrown before `fetch`, or the transport call itself
(`request` is the only constructor that represents a network call; the URL
construction is backend plumbing outside the model). -/
inductive StoreResult where
  | errNotAuthenticated
  | errNoAppId
  | errSizeLimit
  | request (method : String) (body : Option String)
deriving DecidableEq

/-- The thrown outcomes that are precondition failures. -/
def StoreResult.isPrecondError : StoreResult → Bool
  | .errNotAuthenticated => true
  | .errNoAppId => true
  | _ => false

/-- The operation `getAppData` (lines 227-256) up to the transport boundary: requires
`isAuthenticated()` then `currentAppId`, then issues a GET. -/
def getAppData (user : Option JUser) (appId : Option String) : StoreResult :=
  match user with
  | none => .errNotAuthenticated
  | some _ =>
    match appId with
    | none => .errNoAppId
    | some _ => .request "GET" none

/-- The operation `updateAppData` (lines 264-297): auth check, app-id check, then the
size check on `JSON.stringify(data).length`, then a PATCH (with a
field-mask query parameter) whose body is the encoded wire form. -/
def updateAppData (user : Option JUser) (appId : Option String)
    (data : JFields) : StoreResult :=
  match user with
  | none => .errNotAuthenticated
  | some _ =>
    match appId with
    | none => .errNoAppId
    | some _ =>
      if (jsonStringifyDoc data).length > MAX_APP_DATA_SIZE then .errSizeLimit
      else .request "PATCH" (some (wireBody data))

/-- The operation `setAppData` (lines 304-336): identical checks; PATCH without a mask. -/
def setAppData (user : Option JUser) (appId : Option String)
    (data : JFields) : StoreResult :=
  match user with
  | none => .errNotAuthenticated
  | some _ =>
    match appId with
    | none => .errNoAppId
    | some _ =>
      if (jsonStringifyDoc data).length > MAX_APP_DATA_SIZE then .errSizeLimit
      else .request "PATCH" (some (wireBody data))

/-- The operation `deleteAppData` (lines 342-365): auth and app-id checks, then DELETE. -/
def deleteAppData (user : Option JUser) (appId : Option String) : StoreResult :=
  match user with
  | none => .errNotAuthenticated
  | some _ =>
    match appId with
    | none => .errNoAppId
    | some _ => .request "DELETE" none

/-- A concrete authenticated user for witnesses. -/
def exUser : JUser :=
  ⟨some (.str "u1"), some (.str "a@b.com"), some (.bool true), none, none⟩

/-- The document `{"k": "aa…a"}` with an `n`-character payload: the size-check examples. -/
def exStrDoc (n : Nat) : JFields :=
  .cons "k" (.str ⟨List.replicate n 'a'⟩) .nil

/-! ## `String.prototype.split` model

`init` and `_parseJWT` use `hash.split('token=')`, `.split('&')` and
`token.split('.')`; modelled character-exactly for non-empty separators
(left-to-right, non-overlapping). -/

/-- Whether `p` is a prefix of `cs`. -/
def listStartsWith : List Char → List Char → Bool
  | [], _ => true
  | _ :: _, [] => false
  | p :: ps, c :: cs => p == c && listStartsWith ps cs

/-- Split accumulator loop; fuel-structural (each step consumes at least
one character, so `length + 1` fuel suffices). -/
def splitOnListAux (sep : List Char) : Nat → List Char → List Char →
    List (List Char)
  | 0, acc, cs => [acc.reverse ++ cs]
  | _ + 1, acc, [] => [acc.reverse]
  | fuel + 1, acc, c :: cs =>
    if listStartsWith sep (c :: cs) then
      acc.reverse :: splitOnListAux sep fuel [] (List.drop sep.length (c :: cs))
    else
      splitOnListAux sep fuel (c :: acc) cs

/-- Models `s.split(sep)` for a string separator. -/
def jsSplit (s sep : String) : List String :=
  if sep.data.isEmpty then s.data.map (fun c => (⟨[c]⟩ : String))
  else (splitOnListAux sep.data (s.data.length + 1) [] s.data).map
    (fun l => (⟨l⟩ : String))

/-! ## `atob` and `decodeURIComponent` models

`_parseJWT` converts base64url to base64, applies `atob` (forgiving
base64: optional padding stripped when the length is a multiple of four,
failure when `length % 4 == 1` or on a character outside the alphabet),
then routes every byte through `%xx` percent-encoding and
`decodeURIComponent`, whose net effect is strict UTF-8 decoding of the
byte sequence (throwing on malformed sequences).  Any failure anywhere is
caught by `init`'s `try`/`catch`. -/

/-- Value of one base64 alphabet character. -/
def b64Val (c : Char) : Option Nat :=
  if 'A' ≤ c ∧ c ≤ 'Z' then some (c.toNat - 65)
  else if 'a' ≤ c ∧ c ≤ 'z' then some (c.toNat - 71)
  else if '0' ≤ c ∧ c ≤ '9' then some (c.toNat + 4)
  else if c = '+' then some 62
  else if c = '/' then some 63
  else none

/-- Map every character to its 6-bit value, failing on foreign ones. -/
def mapB64Vals : List Char → Option (List Nat)
  | [] => some []
  | c :: cs => do
    let v ← b64Val c
    let vs ← mapB64Vals cs
    pure (v :: vs)

/-- Reassemble 6-bit groups into 8-bit bytes (final 2- and 3-value chunks
carry one and two bytes; leftover bits are discarded). -/
def b64Groups : List Nat → Option (List Nat)
  | [] => some []
  | [_] => none
  | [a, b] => some [a * 4 + b / 16]
  | [a, b, c] => some [a * 4 + b / 16, b % 16 * 16 + c / 4]
  | a :: b :: c :: d :: rest => do
    let tl ← b64Groups rest
    pure ((a * 4 + b / 16) :: (b % 16 * 16 + c / 4) :: (c % 4 * 64 + d) :: tl)

/-- Strip up to two trailing `=` padding characters. -/
def stripPad (cs : List Char) : List Char :=
  match cs.reverse with
  | '=' :: '=' :: rest => rest.reverse
  | '=' :: rest => rest.reverse
  | _ => cs

/-- The `atob` builtin: base64 text to a byte list. -/
def atob (s : String) : Option (List Nat) :=
  let cs := if s.data.length % 4 = 0 then stripPad s.data else s.data
  if cs.length % 4 = 1 then none
  else do
    let vs ← mapB64Vals cs
    b64Groups vs

/-- Strict UTF-8 decoding of a byte list (the composite effect of the
percent-encoding dance with `decodeURIComponent`); `none` on malformed
sequences, overlong ranges and surrogate code points. -/
def utf8Decode : List Nat → Option (List Char)
  | [] => some []
  | b :: rest =>
    if b < 128 then do
      let tl ← utf8Decode rest
      pure (Char.ofNat b :: tl)
    else if 194 ≤ b ∧ b ≤ 223 then
      match rest with
      | c :: rest2 =>
        if 128 ≤ c ∧ c ≤ 191 then do
          let tl ← utf8Decode rest2
          pure (Char.ofNat ((b - 192) * 64 + (c - 128)) :: tl)
        else none
      | [] => none
    else if 224 ≤ b ∧ b ≤ 239 then
      match rest with
      | c :: d :: rest2 =>
        if (128 ≤ c ∧ c ≤ 191) ∧ (128 ≤ d ∧ d ≤ 191) then
          let cp := (b - 224) * 4096 + (c - 128) * 64 + (d - 128)
          if cp < 2048 ∨ (55296 ≤ cp ∧ cp ≤ 57343) then none
          else do
            let tl ← utf8Decode rest2
            pure (Char.ofNat cp :: tl)
        else none
      | _ => none
    else if 240 ≤ b ∧ b ≤ 244 then
      match rest with
      | c :: d :: e :: rest2 =>
        if (128 ≤ c ∧ c ≤ 191) ∧ (128 ≤ d ∧ d ≤ 191) ∧ (128 ≤ e ∧ e ≤ 191)
          then
          let cp := (b - 240) * 262144 + (c - 128) * 4096 + (d - 128) * 64
            + (e - 128)
          if cp < 65536 ∨ cp > 1114111 then none
          else do
            let tl ← utf8Decode rest2
            pure (Char.ofNat cp :: tl)
        else none
      | _ => none
    else none

/-! ## `JSON.parse` model

A recursive-descent parser for the JSON grammar (objects, arrays, strings
with the standard escapes and non-surrogate `\uXXXX`, numbers with
fraction and exponent, literals), fuel-structural with one fuel unit per
nesting step.  Numbers are exact rationals (JS would round to the nearest
float; the bootstrap claims use small integers, where the two agree). -/

/-- Skip JSON whitespace. -/
def skipWs : List Char → List Char
  | [] => []
  | c :: cs =>
    if c = ' ' ∨ c = Char.ofNat 9 ∨ c = Char.ofNat 10 ∨ c = Char.ofNat 13
      then skipWs cs
    else c :: cs

/-- Value of one hexadecimal digit character. -/
def hexVal (c : Char) : Option Nat :=
  if '0' ≤ c ∧ c ≤ '9' then some (c.toNat - 48)
  else if 'a' ≤ c ∧ c ≤ 'f' then some (c.toNat - 87)
  else if 'A' ≤ c ∧ c ≤ 'F' then some (c.toNat - 55)
  else none

/-- Parse the remainder of a JSON string literal (after the opening
quote): the decoded characters and the input past the closing quote. -/
def parseJsonStrChars : List Char → Option (List Char × List Char)
  | [] => none
  | c :: cs =>
    if c = '"' then some ([], cs)
    else if c = '\\' then
      match cs with
      | [] => none
      | e :: cs2 =>
        if e = 'u' then
          match cs2 with
          | h1 :: h2 :: h3 :: h4 :: cs3 => do
            let v1 ← hexVal h1
            let v2 ← hexVal h2
            let v3 ← hexVal h3
            let v4 ← hexVal h4
            let cp := v1 * 4096 + v2 * 256 + v3 * 16 + v4
            if 55296 ≤ cp ∧ cp ≤ 57343 then none
            else do
              let (tl, rest) ← parseJsonStrChars cs3
              pure (Char.ofNat cp :: tl, rest)
          | _ => none
        else do
          let ec ←
            if e = '"' then some '"'
            else if e = '\\' then some '\\'
            else if e = '/' then some '/'
            else if e = 'b' then some (Char.ofNat 8)
            else if e = 'f' then some (Char.ofNat 12)
            else if e = 'n' then some (Char.ofNat 10)
            else if e = 'r' then some (Char.ofNat 13)
            else if e = 't' then some (Char.ofNat 9)
            else none
          let (tl, rest) ← parseJsonStrChars cs2
          pure (ec :: tl, rest)
    else if c.toNat < 32 then none
    else do
      let (tl, rest) ← parseJsonStrChars cs
      pure (c :: tl, rest)

/-- Take a maximal run of decimal digits. -/
def takeDigits : List Char → List Char × List Char
  | [] => ([], [])
  | c :: cs =>
    if '0' ≤ c ∧ c ≤ '9' then
      let (ds, rest) := takeDigits cs
      (c :: ds, rest)
    else ([], c :: cs)

/-- Parse an optional exponent part. -/
def parseJsonExp (cs : List Char) : Option (Int × List Char) :=
  match cs with
  | c :: tl =>
    if c = 'e' ∨ c = 'E' then
      match tl with
      | s :: tl2 =>
        if s = '+' then
          let (ds, rest) := takeDigits tl2
          if ds.isEmpty then none else some ((parseDecNat ds : Int), rest)
        else if s = '-' then
          let (ds, rest) := takeDigits tl2
          if ds.isEmpty then none else some (-(parseDecNat ds : Int), rest)
        else
          let (ds, rest) := takeDigits tl
          if ds.isEmpty then none else some ((parseDecNat ds : Int), rest)
      | [] => none
    else some (0, cs)
  | [] => some (0, cs)

/-- Parse a JSON number. -/
def parseJsonNumber (cs : List Char) : Option (ℚ × List Char) :=
  let (neg, cs1) :=
    match cs with
    | c :: tl => if c = '-' then (true, tl) else (false, cs)
    | [] => (false, cs)
  let (ids, cs2) := takeDigits cs1
  if ids.isEmpty then none
  else
    let (fds, cs3) :=
      match cs2 with
      | c :: tl => if c = '.' then takeDigits tl else ([], cs2)
      | [] => ([], cs2)
    match parseJsonExp cs3 with
    | none => none
    | some (ex, cs4) =>
      let mag : ℚ := (parseDecNat ids : ℚ)
        + (parseDecNat fds : ℚ) / ((10 : ℚ) ^ fds.length)
      let mag := mag * (10 : ℚ) ^ ex
      some (if neg then -mag else mag, cs4)

mutual
/-- Parse one JSON value. -/
def parseJsonVal : Nat → List Char → Option (JVal × List Char)
  | 0, _ => none
  | fuel + 1, cs =>
    match skipWs cs with
    | [] => none
    | c :: cs1 =>
      if c = 'n' then
        match cs1 with
        | 'u' :: 'l' :: 'l' :: rest => some (.null, rest)
        | _ => none
      else if c = 't' then
        match cs1 with
        | 'r' :: 'u' :: 'e' :: rest => some (.bool true, rest)
        | _ => none
      else if c = 'f' then
        match cs1 with
        | 'a' :: 'l' :: 's' :: 'e' :: rest => some (.bool false, rest)
        | _ => none
      else if c = '"' then do
        let (chars, rest) ← parseJsonStrChars cs1
        pure (.str ⟨chars⟩, rest)
      else if c = '[' then
        match skipWs cs1 with
        | c2 :: rest =>
          if c2 = ']' then some (.arr .nil, rest)
          else do
            let (xs, rest2) ← parseJsonArrElems fuel (c2 :: rest)
            pure (.arr xs, rest2)
        | [] => none
      else if c = Char.ofNat 123 then
        match skipWs cs1 with
        | c2 :: rest =>
          if c2 = Char.ofNat 125 then some (.obj .nil, rest)
          else do
            let (fs, rest2) ← parseJsonObjMembers fuel (c2 :: rest)
            pure (.obj fs, rest2)
        | [] => none
      else do
        let (q, rest) ← parseJsonNumber (c :: cs1)
        pure (.num q, rest)

/-- Parse the elements of a non-empty JSON array, consuming the closing
bracket. -/
def parseJsonArrElems : Nat → List Char → Option (JList × List Char)
  | 0, _ => none
  | fuel + 1, cs => do
    let (v, rest) ← parseJsonVal fuel cs
    match skipWs rest with
    | c :: rest2 =>
      if c = ']' then some (.cons v .nil, rest2)
      else if c = ',' then do
        let (tl, rest3) ← parseJsonArrElems fuel rest2
        pure (.cons v tl, rest3)
      else none
    | [] => none

/-- Parse the members of a non-empty JSON object, consuming the closing
brace. -/
def parseJsonObjMembers : Nat → List Char → Option (JFields × List Char)
  | 0, _ => none
  | fuel + 1, cs =>
    match skipWs cs with
    | c :: cs1 =>
      if c = '"' then do
        let (kcs, rest) ← parseJsonStrChars cs1
        match skipWs rest with
        | c2 :: rest2 =>
          if c2 = ':' then do
            let (v, rest3) ← parseJsonVal fuel rest2
            match skipWs rest3 with
            | c3 :: rest4 =>
              if c3 = Char.ofNat 125 then some (.cons ⟨kcs⟩ v .nil, rest4)
              else if c3 = ',' then do
                let (tl, rest5) ← parseJsonObjMembers fuel rest4
                pure (.cons ⟨kcs⟩ v tl, rest5)
              else none
            | [] => none
          else none
        | [] => none
      else none
    | [] => none
end

/-- The `JSON.parse` builtin on the modelled grammar. -/
def jsonParse (s : String) : Option JVal := do
  let (v, rest) ← parseJsonVal (s.data.length + 1) s.data
  match skipWs rest with
  | [] => pure v
  | _ => none

/-! ## `_parseJWT` and `init` (src/sdk.js lines 33-82, 147-154)

`_parseJWT` takes `token.split('.')[1]` (a missing middle segment throws —
`undefined.replace`), converts base64url to base64, `atob`-decodes,
percent-decodes (UTF-8) and `JSON.parse`s.  `init`'s `try`/`catch` around
the token handling absorbs every failure into `currentUser = null`. -/

/-- base64url to base64: `-`→`+`, `_`→`/`. -/
def b64UrlToB64 (s : String) : String :=
  ⟨s.data.map (fun c => if c = '-' then '+' else if c = '_' then '/' else c)⟩

/-- The function `_parseJWT`: the decoded claims payload, `none` for any failure
(missing middle segment, foreign base64, malformed UTF-8 or JSON). -/
def parseJWT (token : String) : Option JVal := do
  let seg ← (jsSplit token ".")[1]?
  let bytes ← atob (b64UrlToB64 seg)
  let chars ← utf8Decode bytes
  jsonParse ⟨chars⟩

/-- JS truthiness of a (possibly `undefined`) value. -/
def jsTruthy : Option JVal → Bool
  | none => false
  | some (.str s) => !(s == "")
  | some (.num q) => !(q == 0)
  | some (.bool b) => b
  | some .null => false
  | some (.arr _) => true
  | some (.obj _) => true
  | some (.other _) => true

/-- JS `a || b`. -/
def jsOr (a b : Option JVal) : Option JVal := if jsTruthy a then a else b

/-- Property lookup in a parsed JSON object (duplicate keys: last wins,
as in `JSON.parse`). -/
def lookupField : JFields → String → Option JVal
  | .nil, _ => none
  | .cons k v tl, key =>
    match lookupField tl key with
    | some w => some w
    | none => if k = key then some v else none

/-- JS property read `v[k]`: `none` models the `TypeError` thrown on a
`null` base (caught by `init`); `some none` is `undefined`. -/
def jsProp : JVal → String → Option (Option JVal)
  | .null, _ => none
  | .obj fs, k => some (lookupField fs k)
  | _, _ => some none

/-- The `users[0]` entry of the profile-lookup response, when the
enrichment call succeeds and carries a user. -/
structure ProfileResp where
  displayName : Option String
  photoUrl : Option String
deriving DecidableEq

/-- JS `x || null` on an optional string field. -/
def strOrNull : Option String → Option String
  | some s => if s == "" then none else some s
  | none => none

/-- Build `currentUser` from the decoded claims (lines 58-64) and the
enrichment response (lines 171-175); `none` when a property read on the
payload throws.  Enrichment failure (`profile = none`) leaves
`displayName`/`photoURL` null — absorbed, not fatal. -/
def mkUser (payload : JVal) (profile : Option ProfileResp) : Option JUser := do
  let uid0 ← jsProp payload "user_id"
  let sub0 ← jsProp payload "sub"
  let email0 ← jsProp payload "email"
  let ev0 ← jsProp payload "email_verified"
  pure (JUser.mk (jsOr uid0 sub0) email0 ev0
    ((profile.map fun p => strOrNull p.displayName).getD none)
    ((profile.map fun p => strOrNull p.photoUrl).getD none))

/-- The parts of `window.location` that `init` reads. -/
structure JsLocation where
  pathname : String
  search : String
  hash : String
deriving DecidableEq

/-- Models `hash.includes('token=')`. -/
def hashHasToken (hash : String) : Bool := (jsSplit hash "token=").length ≥ 2

/-- Models `hash.split('token=')[1].split('&')[0]`. -/
def tokenFromHash (hash : String) : String :=
  (jsSplit (((jsSplit hash "token=")[1]?).getD "") "&").headD ""

/-- The module-level session state (`initialized`, `currentUser`,
`currentAppId`). -/
structure SDKState where
  initialized : Bool
  currentUser : Option JUser
  currentAppId : Option String
deriving DecidableEq

/-- What one `init` call does: the error it throws (if any), the state it
leaves, and the URL it rewrites via `history.replaceState` (if it does). -/
structure InitResult where
  thrown : Option String
  state : SDKState
  urlRewrite : Option String
deriving DecidableEq

/-- Models `appId.replace(/[^a-zA-Z0-9._-]/g, '')`. -/
def sanitizeAppId (s : String) : String :=
  ⟨s.data.filter (fun c => c.isAlphanum || c == '.' || c == '_' || c == '-')⟩

/-- The function `init(appId)` (lines 33-82).  In order: the `!appId` guard (throws on
the empty string), the `initialized` early return, app-id sanitization
(note: `currentAppId` is assigned *before* the format check, so a failed
check leaves the sanitized id behind), the trusted-sites load (externally
absorbed, no modelled state), the token handling under `try`/`catch`, the
URL rewrite to `pathname + search` whenever the fragment mentions
`token=`, and finally `initialized = true`. -/
def init (st : SDKState) (appId : String) (loc : JsLocation)
    (profile : Option ProfileResp) : InitResult :=
  if appId = "" then
    { thrown := some "App ID is required and must be a string", state := st,
      urlRewrite := none }
  else if st.initialized = true then
    { thrown := none, state := st, urlRewrite := none }
  else
    let sanitized := sanitizeAppId appId
    let st1 := { st with currentAppId := some sanitized }
    if sanitized ≠ appId then
      { thrown := some "Invalid app ID format.", state := st1,
        urlRewrite := none }
    else if hashHasToken loc.hash = true then
      let token := tokenFromHash loc.hash
      let user :=
        match parseJWT token with
        | some payload => mkUser payload profile
        | none => none
      { thrown := none,
        state := { st1 with currentUser := user, initialized := true },
        urlRewrite := some (loc.pathname ++ loc.search) }
    else
      { thrown := none, state := { st1 with initialized := true },
        urlRewrite := none }

/-- The good-token location of claim C6:
`#token=h.base64url({"sub":"u1","email":"a@b.com"}).sig`. -/
def locGoodToken : JsLocation :=
  ⟨"/p", "", "#token=h.eyJzdWIiOiJ1MSIsImVtYWlsIjoiYUBiLmNvbSJ9.sig"⟩

/-- The bad-token location of claim C6: `#token=not-base64`. -/
def locBadToken : JsLocation := ⟨"/p", "", "#token=not-base64"⟩

/-- The fresh (pre-`init`) module state. -/
def freshState : SDKState := ⟨false, none, none⟩

/-! ## Heap model for `getUser` (src/sdk.js lines 185-196)

`getUser` builds and returns a fresh object literal copying five fields of
the module-level `currentUser` object.  To state that the result is a
*copy* — that mutating it cannot affect the session identity — objects get
explicit addresses in a small heap; property values may be `undefined`
(`none`), as in the object literal `{uid: currentUser.uid, …}` when a
field is absent. -/

/-- A JS object on the heap: ordered properties, possibly `undefined`. -/
abbrev IdObj := List (String × Option JVal)

/-- A heap of JS objects; an address is an index. -/
structure Heap where
  objs : List IdObj
deriving DecidableEq

/-- The object at address `a` (the empty object off the heap). -/
def Heap.read (h : Heap) (a : Nat) : IdObj := (h.objs[a]?).getD []

/-- Allocate a fresh object; returns the new heap and the fresh address. -/
def Heap.alloc (h : Heap) (o : IdObj) : Heap × Nat :=
  ({ objs := h.objs ++ [o] }, h.objs.length)

/-- Assign property `k` of an object. -/
def updateProp : IdObj → String → JVal → IdObj
  | [], k, v => [(k, some v)]
  | (k0, v0) :: tl, k, v =>
    if k0 = k then (k0, some v) :: tl else (k0, v0) :: updateProp tl k v

/-- Read property `k` of an object (`none` = `undefined`). -/
def getProp : IdObj → String → Option JVal
  | [], _ => none
  | (k0, v0) :: tl, k => if k0 = k then v0 else getProp tl k

/-- Assignment `obj[k] = v` on the heap. -/
def setProp (h : Heap) (a : Nat) (k : String) (v : JVal) : Heap :=
  { objs := h.objs.set a (updateProp (h.read a) k v) }

/-- The object literal `getUser` builds (lines 189-195): the five exposed
fields, copied by value from the session object. -/
def userCopy (o : IdObj) : IdObj :=
  [("uid", getProp o "uid"), ("email", getProp o "email"),
    ("displayName", getProp o "displayName"),
    ("photoURL", getProp o "photoURL"),
    ("emailVerified", getProp o "emailVerified")]

/-- The accessor `getUser()` in the authenticated case, with the session identity
living at address `ua`: allocates and returns a fresh object holding the
copied fields. -/
def getUserModel (h : Heap) (ua : Nat) : Heap × Nat :=
  h.alloc (userCopy (h.read ua))

/-- A one-object heap holding a session identity, for the C8 witness. -/
def exHeap : Heap := ⟨[[("uid", some (.str "u1"))]]⟩

end Jxo

namespace Jxo

/-! ## Decimal print/parse round-trip -/

/-- Each digit character carries its digit value. -/
theorem digitVal_decDigit : ∀ d, d < 10 → digitVal (decDigit d) = d := by decide

/-- No digit character is the minus sign. -/
theorem decDigit_ne_dash : ∀ d, d < 10 → decDigit d ≠ '-' := by decide

/-- Appending a final digit multiplies the parsed value by ten. -/
theorem parseDecNat_append (ds : List Char) (c : Char) :
    parseDecNat (ds ++ [c]) = parseDecNat ds * 10 + digitVal c := by
  simp [parseDecNat, List.foldl_append]

/-- Parsing inverts digit rendering whenever the fuel covers `n`. -/
theorem parseDecNat_natDigitsFuel :
    ∀ fuel n, n < fuel → parseDecNat (natDigitsFuel fuel n) = n := by
  intro fuel
  induction fuel with
  | zero => intro n h; omega
  | succ fuel ih =>
    intro n h
    rw [natDigitsFuel]
    by_cases h10 : n < 10
    · simp only [if_pos h10]
      simpa [parseDecNat] using digitVal_decDigit n h10
    · simp only [if_neg h10]
      rw [parseDecNat_append, ih (n / 10) (by omega),
        digitVal_decDigit (n % 10) (Nat.mod_lt n (by omega))]
      omega

/-- Every rendered character is a digit character. -/
theorem natDigitsFuel_mem :
    ∀ fuel n c, c ∈ natDigitsFuel fuel n → ∃ d, d < 10 ∧ c = decDigit d := by
  intro fuel
  induction fuel with
  | zero => intro n c hc; simp [natDigitsFuel] at hc
  | succ fuel ih =>
    intro n c hc
    rw [natDigitsFuel] at hc
    by_cases h10 : n < 10
    · simp only [if_pos h10, List.mem_singleton] at hc
      exact ⟨n, h10, hc⟩
    · simp only [if_neg h10, List.mem_append, List.mem_singleton] at hc
      rcases hc with hc | hc
      · exact ih _ _ hc
      · exact ⟨n % 10, Nat.mod_lt n (by omega), hc⟩

/-- Digit rendering never yields the empty list. -/
theorem natDecChars_ne_nil (n : Nat) : natDecChars n ≠ [] := by
  rw [natDecChars, natDigitsFuel]
  by_cases h10 : n < 10 <;> simp [h10]

/-- Round-trip: `parseInt` inverts `toString` on every modelled integer. -/
theorem jsParseInt_intToDecStr (n : Int) : jsParseInt (intToDecStr n) = n := by
  by_cases hn : n < 0
  · have h1 : intToDecStr n = ⟨'-' :: natDecChars n.natAbs⟩ := by
      rw [intToDecStr, if_pos hn]
    rw [h1, jsParseInt]
    have hdata : (⟨'-' :: natDecChars n.natAbs⟩ : String).data
        = '-' :: natDecChars n.natAbs := rfl
    rw [hdata, List.head?_cons, if_pos rfl, List.tail_cons]
    simp only [natDecChars, parseDecNat_natDigitsFuel (n.natAbs + 1) n.natAbs
      (by omega)]
    omega
  · have h1 : intToDecStr n = ⟨natDecChars n.toNat⟩ := by
      rw [intToDecStr, if_neg hn]
    rw [h1, jsParseInt]
    have hdata : (⟨natDecChars n.toNat⟩ : String).data = natDecChars n.toNat :=
      rfl
    rw [hdata]
    rcases hL : natDecChars n.toNat with _ | ⟨c, ds⟩
    · exact absurd hL (natDecChars_ne_nil n.toNat)
    · have hc : c ∈ natDigitsFuel (n.toNat + 1) n.toNat := by
        have h2 : natDigitsFuel (n.toNat + 1) n.toNat = c :: ds := hL
        rw [h2]
        exact List.mem_cons_self c ds
      obtain ⟨d, hd, hcd⟩ := natDigitsFuel_mem (n.toNat + 1) n.toNat c hc
      have hne : c ≠ '-' := by rw [hcd]; exact decDigit_ne_dash d hd
      rw [List.head?_cons, if_neg (by simp [hne]), ← hL]
      simp only [natDecChars, parseDecNat_natDigitsFuel (n.toNat + 1) n.toNat
        (by omega)]
      omega

/-- A rational with denominator one is (the cast of) its numerator. -/
theorem intCast_num_eq (q : ℚ) (h : q.den = 1) : ((q.num : ℚ)) = q := by
  conv_rhs => rw [← Rat.num_div_den q, h]
  simp

/-! ## The codec round-trip on the good domain -/

/-- Decoding inverts the number encoding (shared by the top-level and the
list-element dispatch, which encode numbers identically). -/
theorem fieldToObj_encodeNum (q : ℚ) :
    fieldToObj (if q.den = 1 then .ofInteger (intToDecStr q.num)
      else .ofDouble q) = some (.num q) := by
  by_cases h : q.den = 1
  · rw [if_pos h]
    simp only [WireField.ofInteger, fieldToObj, jsParseInt_intToDecStr,
      intCast_num_eq q h]
  · rw [if_neg h]
    simp only [WireField.ofDouble, fieldToObj]

/-- List-element analogue of `fieldToObj_encodeNum`. -/
theorem elemToObj_encodeNum (q : ℚ) :
    elemToObj (if q.den = 1 then .ofInteger (intToDecStr q.num)
      else .ofDouble q) = .num q := by
  by_cases h : q.den = 1
  · rw [if_pos h]
    simp only [WireField.ofInteger, elemToObj, jsParseInt_intToDecStr,
      intCast_num_eq q h]
  · rw [if_neg h]
    simp only [WireField.ofDouble, elemToObj]

mutual

/-- Round-trip for whole documents on the good domain. -/
theorem rtFields : ∀ fs : JFields, goodFields fs = true →
    firestoreToObject (objectToFirestore fs) = fs
  | .nil, _ => rfl
  | .cons k v tl, h => by
    rw [goodFields, Bool.and_eq_true] at h
    obtain ⟨w, hw, hd⟩ := rtField v h.1
    rw [objectToFirestore, hw]
    rw [firestoreToObject, hd, rtFields tl h.2]

/-- Round-trip for one top-level / map-entry value on the good domain. -/
theorem rtField : ∀ v : JVal, goodVal v = true →
    ∃ w, encodeField v = some w ∧ fieldToObj w = some v
  | .str s, _ => ⟨.ofString s, rfl, rfl⟩
  | .num q, _ => by
    refine ⟨_, rfl, ?_⟩
    rw [show (.num q : JVal) = .num q from rfl, fieldToObj_encodeNum q]
  | .bool b, _ => ⟨.ofBoolean b, rfl, rfl⟩
  | .null, _ => ⟨.ofNull, rfl, rfl⟩
  | .arr xs, h => by
    refine ⟨.ofArray (encodeElems xs), rfl, ?_⟩
    rw [goodVal] at h
    simp only [WireField.ofArray, fieldToObj]
    rw [rtElems xs h]
  | .obj fs, h => by
    refine ⟨.ofMap (objectToFirestore fs), rfl, ?_⟩
    rw [goodVal] at h
    simp only [WireField.ofMap, fieldToObj]
    rw [rtFields fs h]

/-- Round-trip for list elements on the good domain. -/
theorem rtElems : ∀ xs : JList, goodElems xs = true →
    elemsToObj (encodeElems xs) = xs
  | .nil, _ => rfl
  | .cons v tl, h => by
    rw [goodElems, Bool.and_eq_true] at h
    rw [encodeElems, elemsToObj, rtElem v h.1, rtElems tl h.2]

/-- Round-trip for one list element on the good domain. -/
theorem rtElem : ∀ v : JVal, goodElem v = true →
    elemToObj (encodeElem v) = v
  | .str s, _ => rfl
  | .num q, _ => by
    rw [encodeElem, elemToObj_encodeNum q]
  | .bool b, _ => rfl
  | .null, _ => rfl
  | .arr xs, h => by rw [goodElem] at h; exact absurd h (by simp)
  | .obj fs, h => by
    rw [goodElem] at h
    rw [encodeElem]
    simp only [WireField.ofMap, elemToObj]
    rw [rtFields fs h]
  | .other s, h => by rw [goodElem] at h; exact absurd h (by simp)

end

/-! ## Claim C1 -/

/-- Claim C1 (amended).  For every Generic Document Value built only from
strings, integers, floats, booleans, null, lists and string-keyed maps *in
which no list occurs directly as an element of another list*, decoding the
encoding yields the value again (integers are exact in the model, so the
safe-integer caveat never triggers).  Maps nested inside lists round-trip;
lists nested directly inside lists do not (see the counterexample). -/
theorem decode_encode_roundtrip (fs : JFields) (h : goodFields fs = true) :
    firestoreToObject (objectToFirestore fs) = fs := rtFields fs h

/-- C1 witness: a concrete document exercising every round-tripping shape
(string, integer, negative integer, float, boolean, null, nested map, and a
list holding a string, null and a map). -/
theorem decode_encode_roundtrip_witness :
    goodFields exRoundtrip = true ∧
    firestoreToObject (objectToFirestore exRoundtrip) = exRoundtrip :=
  ⟨by decide, decode_encode_roundtrip exRoundtrip (by decide)⟩

/-- C1 counterexample: `{"k": [[1]]}` is built only from the claim's
permitted constructors, yet decoding its encoding yields `{"k": [{"0": 1}]}`
— the encoder's list-element dispatch has no `Array.isArray` case, so the
inner list takes the `typeof v === 'object'` branch and is encoded as a map
over its decimal index keys. -/
theorem decode_encode_roundtrip_cex :
    firestoreToObject (objectToFirestore exNestedList) ≠ exNestedList ∧
    firestoreToObject (objectToFirestore exNestedList) = exNestedListDecoded :=
  ⟨by decide, by decide⟩

/-! ## Claims C3 and C9 -/

/-- A field whose tags are all absent decodes to nothing. -/
theorem fieldToObj_hasNoTag (f : WireField) (h : f.hasNoTag = true) :
    fieldToObj f = none := by
  obtain ⟨s, i, d, b, nv, mv, av⟩ := f
  simp only [WireField.hasNoTag, WireField.stringValue, WireField.integerValue,
    WireField.doubleValue, WireField.booleanValue, WireField.nullValue,
    WireField.mapValue, WireField.arrayValue, Bool.and_eq_true,
    Option.isNone_iff_eq_none, Bool.not_eq_true'] at h
  obtain ⟨⟨⟨⟨⟨⟨hs, hi⟩, hd⟩, hb⟩, hnv⟩, hmv⟩, hav⟩ := h
  subst hs hi hd hb hnv hmv hav
  rfl

/-- Claim C3 (amended).  `_firestoreToObject` produces no error on a malformed
union: a field bearing none of the seven recognized tags is *silently
omitted* from the result, and a field bearing more than one tag is decoded
by the first present tag in the source's check order (`stringValue`,
`integerValue`, `doubleValue`, `booleanValue`, `nullValue`, `mapValue`,
`arrayValue`), again without any error — the eight conjuncts below
characterize the dispatch on every wire field. -/
theorem decode_malformed_union (k : String) (f : WireField)
    (tl : WireFields) :
    (f.hasNoTag = true →
      firestoreToObject (.cons k f tl) = firestoreToObject tl) ∧
    (∀ s, f.stringValue = some s → fieldToObj f = some (.str s)) ∧
    (∀ i, f.stringValue = none → f.integerValue = some i →
      fieldToObj f = some (.num (jsParseInt i : ℚ))) ∧
    (∀ d, f.stringValue = none → f.integerValue = none →
      f.doubleValue = some d → fieldToObj f = some (.num d)) ∧
    (∀ b, f.stringValue = none → f.integerValue = none →
      f.doubleValue = none → f.booleanValue = some b →
      fieldToObj f = some (.bool b)) ∧
    (f.stringValue = none → f.integerValue = none → f.doubleValue = none →
      f.booleanValue = none → f.nullValue = true →
      fieldToObj f = some .null) ∧
    (∀ fs, f.stringValue = none → f.integerValue = none →
      f.doubleValue = none → f.booleanValue = none → f.nullValue = false →
      f.mapValue = some fs →
      fieldToObj f = some (.obj (firestoreToObject fs))) ∧
    (∀ vs, f.stringValue = none → f.integerValue = none →
      f.doubleValue = none → f.booleanValue = none → f.nullValue = false →
      f.mapValue = none → f.arrayValue = some vs →
      fieldToObj f = some (.arr (elemsToObj vs))) := by
  obtain ⟨s0, i0, d0, b0, nv0, mv0, av0⟩ := f
  refine ⟨?_, ?_, ?_, ?_, ?_, ?_, ?_, ?_⟩
  · intro h
    rw [firestoreToObject, fieldToObj_hasNoTag _ h]
  · intro s hs
    rw [WireField.stringValue] at hs
    subst hs
    rfl
  · intro i hs hi
    rw [WireField.stringValue] at hs
    rw [WireField.integerValue] at hi
    subst hs hi
    rfl
  · intro d hs hi hd
    rw [WireField.stringValue] at hs
    rw [WireField.integerValue] at hi
    rw [WireField.doubleValue] at hd
    subst hs hi hd
    rfl
  · intro b hs hi hd hb
    rw [WireField.stringValue] at hs
    rw [WireField.integerValue] at hi
    rw [WireField.doubleValue] at hd
    rw [WireField.booleanValue] at hb
    subst hs hi hd hb
    rfl
  · intro hs hi hd hb hnv
    rw [WireField.stringValue] at hs
    rw [WireField.integerValue] at hi
    rw [WireField.doubleValue] at hd
    rw [WireField.booleanValue] at hb
    rw [WireField.nullValue] at hnv
    subst hs hi hd hb hnv
    rfl
  · intro fs hs hi hd hb hnv hmv
    rw [WireField.stringValue] at hs
    rw [WireField.integerValue] at hi
    rw [WireField.doubleValue] at hd
    rw [WireField.booleanValue] at hb
    rw [WireField.nullValue] at hnv
    rw [WireField.mapValue] at hmv
    subst hs hi hd hb hnv hmv
    rfl
  · intro vs hs hi hd hb hnv hmv hav
    rw [WireField.stringValue] at hs
    rw [WireField.integerValue] at hi
    rw [WireField.doubleValue] at hd
    rw [WireField.booleanValue] at hb
    rw [WireField.nullValue] at hnv
    rw [WireField.mapValue] at hmv
    rw [WireField.arrayValue] at hav
    subst hs hi hd hb hnv hmv hav
    rfl

/-- C3 witness: one concrete multi-tag union per dispatch step — the
no-tag union is dropped, `stringValue` beats `integerValue`,
`integerValue` beats `doubleValue`, `doubleValue` beats `booleanValue`,
`booleanValue` beats `nullValue`, `nullValue` beats `mapValue`,
`mapValue` beats `arrayValue`, and a lone `arrayValue` decodes as a
list. -/
theorem decode_malformed_union_witness :
    firestoreToObject
        (.cons "k" (.mk none none none none false none none) .nil)
      = firestoreToObject .nil ∧
    fieldToObj (.mk (some "a") (some "5") none none false none none)
      = some (.str "a") ∧
    fieldToObj (.mk none (some "7") (some 2) none false none none)
      = some (.num (jsParseInt "7" : ℚ)) ∧
    fieldToObj (.mk none none (some 2) (some true) false none none)
      = some (.num 2) ∧
    fieldToObj (.mk none none none (some true) true none none)
      = some (.bool true) ∧
    fieldToObj (.mk none none none none true (some .nil) none)
      = some .null ∧
    fieldToObj (.mk none none none none false (some .nil) (some .nil))
      = some (.obj (firestoreToObject .nil)) ∧
    fieldToObj (.mk none none none none false none (some .nil))
      = some (.arr (elemsToObj .nil)) :=
  ⟨(decode_malformed_union "k" (.mk none none none none false none none)
      .nil).1 rfl,
    (decode_malformed_union "k"
      (.mk (some "a") (some "5") none none false none none) .nil).2.1
      "a" rfl,
    (decode_malformed_union "k"
      (.mk none (some "7") (some 2) none false none none) .nil).2.2.1
      "7" rfl rfl,
    (decode_malformed_union "k"
      (.mk none none (some 2) (some true) false none none) .nil).2.2.2.1
      2 rfl rfl rfl,
    (decode_malformed_union "k"
      (.mk none none none (some true) true none none) .nil).2.2.2.2.1
      true rfl rfl rfl rfl,
    (decode_malformed_union "k"
      (.mk none none none none true (some .nil) none) .nil).2.2.2.2.2.1
      rfl rfl rfl rfl rfl,
    (decode_malformed_union "k"
      (.mk none none none none false (some .nil) (some .nil))
      .nil).2.2.2.2.2.2.1 .nil rfl rfl rfl rfl rfl rfl,
    (decode_malformed_union "k"
      (.mk none none none none false none (some .nil))
      .nil).2.2.2.2.2.2.2 .nil rfl rfl rfl rfl rfl rfl rfl⟩

/-- C3 counterexample: the claim requires a *defined error* for a union with
no recognized tag or with more than one tag; instead decoding `{"k": {}}`
yields the same result as decoding `{}` — the field is silently omitted,
indistinguishable from absence — decoding the two-tag union
`{stringValue: "a", integerValue: "5"}` silently yields `"a"`, and
decoding the two-tag union `{integerValue: "5", doubleValue: 3/2}` (no
`stringValue` involved) silently yields the integer `5`. -/
theorem decode_malformed_union_cex :
    firestoreToObject
        (.cons "k" (.mk none none none none false none none) .nil) = .nil ∧
    firestoreToObject
        (.cons "k" (.mk (some "a") (some "5") none none false none none)
          .nil) = .cons "k" (.str "a") .nil ∧
    firestoreToObject
        (.cons "k" (.mk none (some "5") (some (mkRat 3 2)) none false none
          none) .nil) = .cons "k" (.num 5) .nil :=
  ⟨rfl, rfl, by decide⟩

/-- Claim C9 (confirmed).  `_firestoreToObject` is total in the model (it is a
Lean function, so it returns on every wire input without raising): a
top-level or map field bearing no recognized tag is omitted from the
result, and a list element bearing none of the five tags the element
dispatch checks — in particular one that is itself an `arrayValue` — decodes
to `null`. -/
theorem decode_total (k : String) (f : WireField) (tl : WireFields) :
    (f.hasNoTag = true →
      firestoreToObject (.cons k f tl) = firestoreToObject tl) ∧
    (f.stringValue = none → f.integerValue = none → f.doubleValue = none →
      f.booleanValue = none → f.mapValue = none → elemToObj f = .null) := by
  constructor
  · intro h
    rw [firestoreToObject, fieldToObj_hasNoTag f h]
  · intro hs hi hd hb hmv
    obtain ⟨s0, i, d, b, nv, mv, av⟩ := f
    rw [WireField.stringValue] at hs
    rw [WireField.integerValue] at hi
    rw [WireField.doubleValue] at hd
    rw [WireField.booleanValue] at hb
    rw [WireField.mapValue] at hmv
    subst hs hi hd hb hmv
    cases nv <;> cases av <;> rfl

/-- C9 witness: the no-tag field is dropped, and a list element that is a
(nested) `arrayValue` decodes to `null`. -/
theorem decode_total_witness :
    (WireField.hasNoTag (.mk none none none none false none none) = true →
      firestoreToObject
        (.cons "k" (.mk none none none none false none none) .nil)
        = firestoreToObject .nil) ∧
    elemToObj (.mk none none none none false none (some .nil)) = .null :=
  ⟨fun h => (decode_total "k" (.mk none none none none false none none)
      .nil).1 h,
    (decode_total "k" (.mk none none none none false none (some .nil))
      .nil).2 rfl rfl rfl rfl rfl⟩

/-! ## Claim C4 -/

/-- Claim C4 (amended).  `encode` never raises (it is total in the model), but
the `String(v)` fallback to a `stringValue` tag exists *only* in the
list-element dispatch: a value of a runtime type with no defined wire
mapping is silently *omitted* when it appears as a top-level field or map
entry (no `typeof` branch matches, so the key is never assigned), and is
stringified only when it appears as a list element. -/
theorem encode_fallback (s k : String) (tl : JFields) :
    encodeField (.other s) = none ∧
    objectToFirestore (.cons k (.other s) tl) = objectToFirestore tl ∧
    encodeElem (.other s) = .ofString s :=
  ⟨rfl, rfl, rfl⟩

/-- C4 counterexample: the claim requires the string fallback at *every*
position; instead encoding `{"k": v}` for a `v` with no defined mapping
(`String(v) = "12:00"`) yields the empty wire document — the key is
omitted, and no `stringValue` tag is produced anywhere. -/
theorem encode_fallback_cex :
    objectToFirestore (.cons "k" (.other "12:00") .nil) = .nil ∧
    encodeElems (.cons (.other "12:00") .nil)
      = .cons (.ofString "12:00") .nil :=
  ⟨rfl, rfl⟩

/-! ## Claims C2 and C7: size limit and preconditions -/

/-- Flattening `n` copies of a singleton gives `n` copies of its element. -/
theorem flatten_replicate_singleton (c : Char) :
    ∀ n, (List.replicate n [c]).flatten = List.replicate n c := by
  intro n
  induction n with
  | zero => rfl
  | succ n ih => simp [List.replicate_succ, ih]

/-- An all-`'a'` string is untouched by JSON escaping. -/
theorem escapeJson_replicate_a (n : Nat) :
    escapeJson ⟨List.replicate n 'a'⟩ = ⟨List.replicate n 'a'⟩ := by
  have h1 : escapeJsonChar 'a' = ['a'] := by decide
  rw [escapeJson]
  have h2 : (⟨List.replicate n 'a'⟩ : String).data = List.replicate n 'a' :=
    rfl
  rw [h2, List.map_replicate, h1, flatten_replicate_singleton]

/-- Length of an all-`'a'` string. -/
theorem length_replicate_a (n : Nat) :
    (⟨List.replicate n 'a'⟩ : String).length = n := by
  show (List.replicate n 'a').length = n
  simp

/-- The size check's measure on `{"k": "a…a"}`: the plain JSON text
`{"k":"a…a"}` has `n + 8` characters. -/
theorem jsonStringifyDoc_exStrDoc_length (n : Nat) :
    (jsonStringifyDoc (exStrDoc n)).length = n + 8 := by
  have h0 : jsonStringifyDoc (exStrDoc n)
      = "\x7b" ++ (quoteJson "k" ++ ":"
        ++ ("\"" ++ escapeJson ⟨List.replicate n 'a'⟩ ++ "\"")) ++ "\x7d" :=
    rfl
  have hk : quoteJson "k" = "\"k\"" := by decide
  rw [h0, hk, escapeJson_replicate_a]
  simp only [String.length_append, length_replicate_a]
  have c1 : ("\x7b" : String).length = 1 := rfl
  have c2 : ("\"k\"" : String).length = 3 := rfl
  have c3 : (":" : String).length = 1 := rfl
  have c4 : ("\"" : String).length = 1 := rfl
  have c5 : ("\x7d" : String).length = 1 := rfl
  rw [c1, c2, c3, c4, c5]
  omega

/-- The wire form of the same document: the PATCH body
`{"fields":{"k":{"stringValue":"a…a"}}}` has `n + 35` characters. -/
theorem wireBody_exStrDoc_length (n : Nat) :
    (wireBody (exStrDoc n)).length = n + 35 := by
  have h0 : wireBody (exStrDoc n)
      = "\x7b" ++ quoteJson "fields" ++ ":"
        ++ ("\x7b" ++ (quoteJson "k" ++ ":"
          ++ ("\x7b" ++ (quoteJson "stringValue" ++ ":"
            ++ ("\"" ++ escapeJson ⟨List.replicate n 'a'⟩ ++ "\""))
            ++ "\x7d")) ++ "\x7d") ++ "\x7d" := rfl
  have hf : quoteJson "fields" = "\"fields\"" := by decide
  have hk : quoteJson "k" = "\"k\"" := by decide
  have hs : quoteJson "stringValue" = "\"stringValue\"" := by decide
  rw [h0, hf, hk, hs, escapeJson_replicate_a]
  simp only [String.length_append, length_replicate_a]
  have c1 : ("\x7b" : String).length = 1 := rfl
  have c2 : ("\"fields\"" : String).length = 8 := rfl
  have c3 : (":" : String).length = 1 := rfl
  have c4 : ("\"k\"" : String).length = 3 := rfl
  have c5 : ("\"stringValue\"" : String).length = 13 := rfl
  have c6 : ("\"" : String).length = 1 := rfl
  have c7 : ("\x7d" : String).length = 1 := rfl
  rw [c1, c2, c3, c4, c5, c6, c7]
  omega

/-- Claim C2 (amended).  The 10 KB ceiling is compared against
`JSON.stringify(data).length` — the character count of the *plain JSON
serialization of the input document*, not the byte length of the encoded
wire form — and when that measure exceeds 10240 both `updateAppData`
(merge) and `setAppData` (replace) fail with the size-limit error before
any transport call (`request` is never produced). -/
theorem store_size_limit (user : JUser) (appId : String) (data : JFields)
    (h : (jsonStringifyDoc data).length > MAX_APP_DATA_SIZE) :
    updateAppData (some user) (some appId) data = .errSizeLimit ∧
    setAppData (some user) (some appId) data = .errSizeLimit := by
  constructor
  · rw [updateAppData, if_pos h]
  · rw [setAppData, if_pos h]

/-- C2 witness: `{"k": "a…a"}` with 10233 payload characters serializes to
10241 > 10240 characters of plain JSON, and both writes reject it. -/
theorem store_size_limit_witness :
    (jsonStringifyDoc (exStrDoc 10233)).length > MAX_APP_DATA_SIZE ∧
    updateAppData (some exUser) (some "app") (exStrDoc 10233)
      = .errSizeLimit ∧
    setAppData (some exUser) (some "app") (exStrDoc 10233)
      = .errSizeLimit := by
  have h : (jsonStringifyDoc (exStrDoc 10233)).length > MAX_APP_DATA_SIZE := by
    rw [jsonStringifyDoc_exStrDoc_length, MAX_APP_DATA_SIZE]
    omega
  exact ⟨h, (store_size_limit exUser "app" (exStrDoc 10233) h).1,
    (store_size_limit exUser "app" (exStrDoc 10233) h).2⟩

/-- C2 counterexample: for `{"k": "a…a"}` with 10232 payload characters the
encoded wire form is 10267 > 10240 characters, yet `updateAppData` makes
the transport call — the check measured `JSON.stringify(data).length`
(10240, not over the ceiling), not the wire form the claim names. -/
theorem store_size_limit_cex :
    (wireBody (exStrDoc 10232)).length > MAX_APP_DATA_SIZE ∧
    updateAppData (some exUser) (some "app") (exStrDoc 10232)
      = .request "PATCH" (some (wireBody (exStrDoc 10232))) := by
  constructor
  · rw [wireBody_exStrDoc_length, MAX_APP_DATA_SIZE]
    omega
  · have h : ¬ (jsonStringifyDoc (exStrDoc 10232)).length
        > MAX_APP_DATA_SIZE := by
      rw [jsonStringifyDoc_exStrDoc_length, MAX_APP_DATA_SIZE]
      omega
    rw [updateAppData, if_neg h]

/-- Claim C7 (confirmed).  With no authenticated session (`currentUser` =
`null`) or no configured app identifier (`currentAppId` = `null`), all four
store operations fail with a precondition error — `errNotAuthenticated` or
`errNoAppId`, never the `request` constructor, so no network call is
modelled. -/
theorem store_precondition (user : Option JUser) (appId : Option String)
    (data : JFields) (h : user = none ∨ appId = none) :
    (getAppData user appId).isPrecondError = true ∧
    (updateAppData user appId data).isPrecondError = true ∧
    (setAppData user appId data).isPrecondError = true ∧
    (deleteAppData user appId).isPrecondError = true := by
  rcases h with h | h
  · subst h
    exact ⟨rfl, rfl, rfl, rfl⟩
  · subst h
    cases user <;> exact ⟨rfl, rfl, rfl, rfl⟩

/-- C7 witness: unauthenticated state with a configured app id. -/
theorem store_precondition_witness :
    (getAppData none (some "app")).isPrecondError = true ∧
    (updateAppData none (some "app") .nil).isPrecondError = true ∧
    (setAppData none (some "app") .nil).isPrecondError = true ∧
    (deleteAppData none (some "app")).isPrecondError = true :=
  store_precondition none (some "app") .nil (Or.inl rfl)

/-! ## Claims C5, C6 and C10: `init` -/

/-- Claim C5 (amended).  Whenever a bootstrap consumes a token from the URL
fragment (fresh state, valid app id, fragment mentioning `token=`), the
visible URL is rewritten to `pathname + search`: the *fragment* is cleared
but the *query parameters are preserved* — the source passes
`window.location.pathname + window.location.search` to `replaceState`. -/
theorem url_scrub (st : SDKState) (appId : String) (loc : JsLocation)
    (profile : Option ProfileResp) (h1 : st.initialized = false)
    (h2 : appId ≠ "") (h3 : sanitizeAppId appId = appId)
    (h4 : hashHasToken loc.hash = true) :
    (init st appId loc profile).urlRewrite
      = some (loc.pathname ++ loc.search) := by
  simp [init, h1, h2, h3, h4]

/-- C5 witness: a concrete bootstrap whose URL is rewritten to
`pathname + search`. -/
theorem url_scrub_witness :
    freshState.initialized = false ∧ ("app" : String) ≠ "" ∧
    sanitizeAppId "app" = "app" ∧ hashHasToken "#token=a.b.c" = true ∧
    (init freshState "app" ⟨"/p", "?q=1", "#token=a.b.c"⟩ none).urlRewrite
      = some ("/p" ++ "?q=1") :=
  ⟨rfl, by decide, by decide, by decide,
    url_scrub freshState "app" ⟨"/p", "?q=1", "#token=a.b.c"⟩ none rfl
      (by decide) (by decide) (by decide)⟩

/-- C5 counterexample: the claim requires the query parameters cleared
(URL reduced to the path), but the rewritten URL for path `/p`, query
`?q=1` and fragment `#token=a.b.c` is `/p?q=1`, not `/p`. -/
theorem url_scrub_cex :
    (init freshState "app" ⟨"/p", "?q=1", "#token=a.b.c"⟩ none).urlRewrite
        = some "/p?q=1" ∧
    (init freshState "app" ⟨"/p", "?q=1", "#token=a.b.c"⟩ none).urlRewrite
        ≠ some "/p" :=
  ⟨by decide, by decide⟩

/-- Claim C6 (confirmed).  Bootstrapping from a fresh state with the
fragment `#token=h.eyJzdWIiOiJ1MSIsImVtYWlsIjoiYUBiLmNvbSJ9.sig` — whose
middle segment base64url-decodes to `{"sub":"u1","email":"a@b.com"}` —
yields a session user with uid `"u1"` and email `"a@b.com"` and throws
nothing; bootstrapping with `#token=not-base64` (no middle segment, so
`split('.')[1]` is `undefined` and `_parseJWT` throws into the absorbing
`catch`) leaves `currentUser` absent and also throws nothing. -/
theorem init_token_bootstrap :
    (init freshState "app" locGoodToken none).state.currentUser
        = some (JUser.mk (some (.str "u1")) (some (.str "a@b.com")) none none
          none) ∧
    (init freshState "app" locGoodToken none).thrown = none ∧
    (init freshState "app" locBadToken none).state.currentUser = none ∧
    (init freshState "app" locBadToken none).thrown = none :=
  ⟨by decide, by decide, by decide, by decide⟩

/-- Claim C10 (confirmed).  Once `initialized` is set, `init` with any
non-empty argument — also one containing characters outside
`[A-Za-z0-9._-]` — returns through the early-return before the format
validation: nothing is thrown, no URL is rewritten, and the state
(`currentAppId`, `initialized`, `currentUser`) is returned unchanged. -/
theorem init_early_return (st : SDKState) (appId : String)
    (loc : JsLocation) (profile : Option ProfileResp)
    (h1 : st.initialized = true) (h2 : appId ≠ "") :
    init st appId loc profile = ⟨none, st, none⟩ := by
  simp only [init, if_neg h2, if_pos h1]

/-- C10 witness: a second `init` with the invalid id `"bad id!"` (space
and `!` are outside the allowed set) on an already-initialized state. -/
theorem init_early_return_witness :
    ("bad id!" : String) ≠ "" ∧
    init ⟨true, none, some "app"⟩ "bad id!" ⟨"/p", "?q=1", "#token=x.y.z"⟩
        none
      = ⟨none, ⟨true, none, some "app"⟩, none⟩ :=
  ⟨by decide,
    init_early_return ⟨true, none, some "app"⟩ "bad id!"
      ⟨"/p", "?q=1", "#token=x.y.z"⟩ none rfl (by decide)⟩

/-! ## Claim C8: `getUser` returns a copy -/

/-- Reading the address just allocated yields the allocated object. -/
theorem Heap.read_alloc (h : Heap) (o : IdObj) :
    (h.alloc o).1.read (h.alloc o).2 = o := by
  simp [Heap.alloc, Heap.read, List.getElem?_concat_length]

/-- Allocation does not disturb existing addresses. -/
theorem Heap.read_alloc_lt (h : Heap) (o : IdObj) (a : Nat)
    (ha : a < h.objs.length) :
    (h.alloc o).1.read a = h.read a := by
  simp [Heap.alloc, Heap.read, List.getElem?_append_left ha]

/-- Assigning a property of one object does not disturb another. -/
theorem Heap.read_set_ne (h : Heap) (a b : Nat) (k : String) (v : JVal)
    (hab : b ≠ a) :
    (setProp h b k v).read a = h.read a := by
  simp [setProp, Heap.read, List.getElem?_set_ne hab]

/-- The object `getUser` returns holds the copied session fields. -/
theorem getUserModel_read (h : Heap) (ua : Nat) :
    (getUserModel h ua).1.read (getUserModel h ua).2
      = userCopy (h.read ua) :=
  Heap.read_alloc h (userCopy (h.read ua))

/-- Claim C8 (confirmed).  `getUser` allocates a *fresh* object (a different
address than the session object), and assigning any property of the
returned object leaves the session object — hence `isAuthenticated` and
the contents returned by every later `getUser` call — unchanged. -/
theorem getUser_returns_copy (h : Heap) (ua : Nat) (k : String) (v : JVal)
    (ha : ua < h.objs.length) :
    (getUserModel h ua).2 ≠ ua ∧
    (setProp (getUserModel h ua).1 (getUserModel h ua).2 k v).read ua
      = h.read ua ∧
    (getUserModel
        (setProp (getUserModel h ua).1 (getUserModel h ua).2 k v) ua).1.read
      (getUserModel
        (setProp (getUserModel h ua).1 (getUserModel h ua).2 k v) ua).2
      = (getUserModel h ua).1.read (getUserModel h ua).2 := by
  have haddr : (getUserModel h ua).2 = h.objs.length := rfl
  have hsess :
      (setProp (getUserModel h ua).1 (getUserModel h ua).2 k v).read ua
        = h.read ua := by
    rw [haddr, Heap.read_set_ne _ _ _ _ _ (by omega)]
    exact Heap.read_alloc_lt h _ ua ha
  refine ⟨by rw [haddr]; omega, hsess, ?_⟩
  rw [getUserModel_read, getUserModel_read, hsess]

/-- C8 witness: a one-object heap; overwriting `uid` on the returned copy
leaves the session object and the next `getUser` result unchanged. -/
theorem getUser_returns_copy_witness :
    0 < exHeap.objs.length ∧
    ((getUserModel exHeap 0).2 ≠ 0 ∧
      (setProp (getUserModel exHeap 0).1 (getUserModel exHeap 0).2 "uid"
        (.str "evil")).read 0 = exHeap.read 0 ∧
      (getUserModel
          (setProp (getUserModel exHeap 0).1 (getUserModel exHeap 0).2 "uid"
            (.str "evil")) 0).1.read
        (getUserModel
          (setProp (getUserModel exHeap 0).1 (getUserModel exHeap 0).2 "uid"
            (.str "evil")) 0).2
        = (getUserModel exHeap 0).1.read (getUserModel exHeap 0).2) :=
  ⟨by decide, getUser_returns_copy exHeap 0 "uid" (.str "evil") (by decide)⟩

end Jxo
